import Mathlib

/-!
Verification development for the `BackUpFreeSpace` recovery behavior
(`src/behaviors/back_up_free_space.cpp` of `pb_nav2_plugins`).

The embedding uses exact rational arithmetic (`ℚ`) for the float-valued
quantities of the source.  External mathematical routines that the source
calls (`std::cos`, `std::sin`, `std::hypot`) are passed in as abstract
function parameters `cosf sinf hypotf : ℚ → ℚ`, so every theorem below
quantifies over them (or constrains them by the property that the proof
actually needs).  Side-effect-only statements of the source (logging,
marker visualization) are omitted: they do not influence any returned
value.  The `isCollisionFree` member is declared in the header of the
repository but not defined in the available source file, so it, too, is an
abstract function parameter of the cycle update.
-/

namespace PbNav2

/-- Metadata of a costmap snapshot (`nav2_msgs::msg::Costmap::metadata`):
resolution in meters per cell, origin position, and grid dimensions. -/
structure CostmapMeta where
  resolution : ℚ
  origin_x : ℚ
  origin_y : ℚ
  size_x : ℤ
  size_y : ℤ
deriving Repr, DecidableEq

/-- A costmap snapshot: metadata plus the row-major cell array
(`data[i + j * size_x]`, `uint8` occupancy values modelled as `ℕ`). -/
structure Costmap where
  metadata : CostmapMeta
  data : List ℕ
deriving Repr, DecidableEq

/-- A 2D pose (`geometry_msgs::msg::Pose2D`). -/
structure Pose2D where
  x : ℚ
  y : ℚ
  theta : ℚ
deriving Repr, DecidableEq

/-- C `static_cast<int>` on a nonnegative-or-negative rational: truncation
toward zero. -/
def cTrunc (q : ℚ) : ℤ :=
  if 0 ≤ q then ⌊q⌋ else ⌈q⌉

/-- Number of iterations of the radial sampling loop
`for (float r = 0; r <= radius; r += resolution)`: the samples are
`r = k * resolution` for `k = 0 .. ⌊radius / resolution⌋`.  When
`radius < 0` the loop body never runs; the case `resolution ≤ 0` makes the
C loop diverge and is excluded by hypothesis in every theorem that needs
the loop to terminate. -/
def numRaySteps (radius resolution : ℚ) : ℕ :=
  if 0 ≤ radius ∧ 0 < resolution then (⌊radius / resolution⌋).toNat + 1 else 0

/-- The bounding-box test of line 213 of the source:
`x >= map_min_x && x <= map_max_x && y >= map_min_y && y <= map_max_y`
with `map_min = origin` and `map_max = origin + size * resolution`. -/
def inBox (cm : Costmap) (x y : ℚ) : Bool :=
  decide (cm.metadata.origin_x ≤ x ∧
    x ≤ cm.metadata.origin_x + cm.metadata.size_x * cm.metadata.resolution ∧
    cm.metadata.origin_y ≤ y ∧
    y ≤ cm.metadata.origin_y + cm.metadata.size_y * cm.metadata.resolution)

/-- Cell index of a sample point along an axis: line 214/215 of the source,
`static_cast<int>((x - origin_x) / resolution)`. -/
def cellIndex (origin resolution coord : ℚ) : ℤ :=
  cTrunc ((coord - origin) / resolution)

/-- The index-range test of line 217 of the source:
`i >= 0 && i < size_x && j >= 0 && j < size_y`. -/
def idxOk (cm : Costmap) (i j : ℤ) : Bool :=
  decide (0 ≤ i ∧ i < cm.metadata.size_x ∧ 0 ≤ j ∧ j < cm.metadata.size_y)

/-- Occupancy value of cell `(i, j)`: `costmap.data[i + j * size_x]`
(line 218).  Out-of-range access is undefined behavior in the source; the
model totalizes it with default value `0`, and every theorem that touches
the cell array guards the access with `idxOk`. -/
def cellValue (cm : Costmap) (i j : ℤ) : ℕ :=
  cm.data.getD (i + j * cm.metadata.size_x).toNat 0

/-- Per-sample test of the inner loop of `findBestDirection`
(lines 209-230): a sample at `(x, y)` passes when it is inside the
bounding box, its cell indices are in range, and the cell value is below
the lethal literal `253`; any failure makes the heading unsafe. -/
def sampleOk (cm : Costmap) (x y : ℚ) : Bool :=
  if inBox cm x y then
    let i := cellIndex cm.metadata.origin_x cm.metadata.resolution x
    let j := cellIndex cm.metadata.origin_y cm.metadata.resolution y
    if idxOk cm i j then
      decide (cellValue cm i j < 253)
    else
      false
  else
    false

/-- The sample point at radial distance `r` along heading `angle` from
`pose` (lines 210-211): `(pose.x + r * cos angle, pose.y + r * sin angle)`. -/
def samplePoint (pose : Pose2D) (cosf sinf : ℚ → ℚ) (angle r : ℚ) : ℚ × ℚ :=
  (pose.x + r * cosf angle, pose.y + r * sinf angle)

/-- Safety classification of one candidate heading: the inner loop of
`findBestDirection` (lines 207-230).  `is_safe` ends up `true` exactly when
every radial sample passes `sampleOk` (the source breaks at the first
failing sample, which yields the same value). -/
def isSafeHeading (cm : Costmap) (pose : Pose2D) (radius : ℚ)
    (cosf sinf : ℚ → ℚ) (angle : ℚ) : Bool :=
  (List.range (numRaySteps radius cm.metadata.resolution)).all fun k =>
    let p := samplePoint pose cosf sinf angle (k * cm.metadata.resolution)
    sampleOk cm p.1 p.2

/-- Tracking state of the angular sweep of `findBestDirection`
(lines 187-193): `first_safe_angle_angle` and `last_unsafe_angle_angle` use the float
sentinel `-1.0f` for "unset", and `final_safe_angle_angle` and
`final_unsafe_angle_angle` start at `0.0f`. -/
structure SweepState where
  first_safe_angle : ℚ
  last_unsafe_angle : ℚ
  final_safe_angle : ℚ
  final_unsafe_angle : ℚ
deriving Repr, DecidableEq

/-- Initial tracking state of the sweep. -/
def initSweepState : SweepState :=
  { first_safe_angle := -1, last_unsafe_angle := -1, final_safe_angle := 0, final_unsafe_angle := 0 }

/-- One iteration of the sweep loop body after the safety classification
(lines 231-246 of the source), faithful to the statement order: record the
first safe angle, then the first unsafe angle after it, then take the span
as the new widest span if it is strictly wider, resetting both trackers. -/
def stepSweep (safe : ℚ → Bool) (s : SweepState) (angle : ℚ) : SweepState :=
  let s1 := if safe angle ∧ s.first_safe_angle = -1 then
    { s with first_safe_angle := angle } else s
  let s2 := if ¬ safe angle ∧ s1.first_safe_angle ≠ -1 ∧ s1.last_unsafe_angle = -1 then
    { s1 with last_unsafe_angle := angle } else s1
  if s2.last_unsafe_angle - s2.first_safe_angle > s2.final_unsafe_angle - s2.final_safe_angle ∧
      s2.first_safe_angle ≠ -1 ∧ s2.last_unsafe_angle ≠ -1 then
    { first_safe_angle := -1, last_unsafe_angle := -1,
      final_safe_angle := s2.first_safe_angle, final_unsafe_angle := s2.last_unsafe_angle }
  else
    s2

/-- Number of iterations of the angular sweep
`for (float angle = start_angle; angle <= end_angle; angle += angle_increment)`:
the swept angles are `start + k * inc` for
`k = 0 .. ⌊(end - start) / inc⌋`.  When `end < start` the loop body never
runs; the case `inc ≤ 0` makes the C loop diverge and is excluded by
hypothesis wherever it matters. -/
def sweepCount (start endA inc : ℚ) : ℕ :=
  if start ≤ endA ∧ 0 < inc then (⌊(endA - start) / inc⌋).toNat + 1 else 0

/-- The list of swept angles. -/
def sweepAngles (start endA inc : ℚ) : List ℚ :=
  (List.range (sweepCount start endA inc)).map fun k : ℕ => start + (k : ℚ) * inc

/-- Behavior object state set up by `onConfigure` (the members read from
the parameter server).  `findBestDirection` is a member function of this
class in the source; its returned value reads none of these members. -/
structure BackUpFreeSpace where
  global_frame : String
  robot_radius : ℚ
  max_radius : ℚ
  service_name : String
  free_threshold : ℤ
  visualize : Bool
deriving Repr, DecidableEq

/-- Default value of the `free_threshold` parameter declared at line 35 of
the source. -/
def defaultFreeThreshold : ℤ := 5

/-- Parameter loading and clamping of `onConfigure` (lines 23-61): the
values are read from the parameter server and `max_radius` is clamped up
to `robot_radius` when it is smaller. -/
def onConfigure (global_frame : String) (robot_radius max_radius : ℚ)
    (service_name : String) (free_threshold : ℤ) (visualize : Bool) :
    BackUpFreeSpace :=
  { global_frame := global_frame
    robot_radius := robot_radius
    max_radius := if max_radius < robot_radius then robot_radius else max_radius
    service_name := service_name
    free_threshold := free_threshold
    visualize := visualize }

/-- `BackUpFreeSpace::findBestDirection` (lines 183-252): sweep the
candidate headings, classify each by radial sampling, track the widest
recorded span from a first safe angle to the following first unsafe angle,
and return the midpoint of the winning span (`(0 + 0)/2 = 0` when no span
was ever recorded).  The receiver `self` is the C++ `this`; the returned
value reads no member of it (members are used only for logging and
visualization side effects). -/
def BackUpFreeSpace.findBestDirection (_self : BackUpFreeSpace)
    (cosf sinf : ℚ → ℚ) (cm : Costmap) (pose : Pose2D)
    (start_angle end_angle radius angle_increment : ℚ) : ℚ :=
  let safe := isSafeHeading cm pose radius cosf sinf
  let final := (sweepAngles start_angle end_angle angle_increment).foldl
    (stepSweep safe) initSweepState
  (final.final_safe_angle + final.final_unsafe_angle) / 2

/-- Result status of a behavior callback (`nav2_behaviors::Status`). -/
inductive Status where
  | SUCCEEDED
  | FAILED
  | RUNNING
deriving Repr, DecidableEq

/-- A command published to the velocity sink during one cycle: either the
zero-velocity command of `stopRobot()` or the stored backing-up twist
(`cmd_vel->linear.x / linear.y`). -/
inductive VelCmd where
  | stop
  | drive (vx vy : ℚ)
deriving Repr, DecidableEq

/-- Maneuver state fixed by `onRun` and read by every cycle update:
reference initial pose, stored twist, signed target distance `command_x`,
the time allowance, and the absolute deadline `end_time`. -/
structure ManeuverState where
  initial_x : ℚ
  initial_y : ℚ
  twist_x : ℚ
  twist_y : ℚ
  command_x : ℚ
  command_time_allowance : ℚ
  end_time : ℚ
deriving Repr, DecidableEq

/-- Per-cycle observations from the environment: the current clock value
and the pose lookup result (`none` when `getCurrentPose` fails). -/
structure CycleEnv where
  now : ℚ
  pose : Option Pose2D
deriving Repr, DecidableEq

/-- Everything one cycle update produces: the returned status, the ordered
list of commands published to the velocity sink, and the feedback value
published on the feedback channel (if any). -/
structure CycleOutput where
  status : Status
  cmds : List VelCmd
  feedback : Option ℚ
deriving Repr, DecidableEq

/-- `BackUpFreeSpace::onCycleUpdate` (lines 132-181).  `hypotf` models
`std::hypot`; `icf` models the `isCollisionFree` member, which is declared
in the repository header but not defined in the available source, so it is
kept abstract with the exact argument list of the call site
`isCollisionFree(distance, cmd_vel.get(), pose)` (the commanded twist is
passed as its linear `(x, y)` pair).  Statement order is faithful: timeout
check, pose fetch, feedback publication, success check, collision check,
velocity publication. -/
def onCycleUpdate (hypotf : ℚ → ℚ → ℚ) (icf : ℚ → ℚ × ℚ → Pose2D → Bool)
    (st : ManeuverState) (env : CycleEnv) : CycleOutput :=
  if st.end_time - env.now < 0 ∧ 0 < st.command_time_allowance then
    { status := .FAILED, cmds := [.stop], feedback := none }
  else
    match env.pose with
    | none => { status := .FAILED, cmds := [], feedback := none }
    | some cp =>
      let diff_x := st.initial_x - cp.x
      let diff_y := st.initial_y - cp.y
      let distance := hypotf diff_x diff_y
      if |st.command_x| ≤ distance then
        { status := .SUCCEEDED, cmds := [.stop], feedback := some distance }
      else if icf distance (st.twist_x, st.twist_y)
          { x := cp.x, y := cp.y, theta := cp.theta } = false then
        { status := .FAILED, cmds := [.stop], feedback := some distance }
      else
        { status := .RUNNING, cmds := [.drive st.twist_x st.twist_y],
          feedback := some distance }

/-- Repeated cycle updates of one maneuver, driven by the external
scheduler: the behavior is ticked once per control cycle while it reports
RUNNING, and the maneuver state set by `onRun` is immutable across cycles. -/
def runCycles (hypotf : ℚ → ℚ → ℚ) (icf : ℚ → ℚ × ℚ → Pose2D → Bool)
    (st : ManeuverState) : List CycleEnv → List CycleOutput
  | [] => []
  | env :: rest =>
    onCycleUpdate hypotf icf st env ::
      (if (onCycleUpdate hypotf icf st env).status = .RUNNING then
        runCycles hypotf icf st rest
      else [])

/-- Feedback values published on the feedback channel over a run, in
order. -/
def publishedFeedback (outs : List CycleOutput) : List ℚ :=
  outs.filterMap (·.feedback)

/-- Outcome of the service-availability wait loop of `onRun`
(lines 73-79), as far as a finite list of per-iteration observations
determines it. -/
inductive WaitOutcome where
  | proceed
  | returnFailed
  | stillWaiting
deriving Repr, DecidableEq

/-- The service-availability wait loop of `onRun` (lines 73-79):
`while (!wait_for_service(1s)) { if (!ok()) return FAILED; warn; }`.
Each list element observes one iteration: whether the (1-second bounded)
wait found the service available, and whether `rclcpp::ok()` still holds.
`stillWaiting` means the loop had not exited within the observed horizon. -/
def serviceWait : List (Bool × Bool) → WaitOutcome
  | [] => .stillWaiting
  | (avail, ok) :: rest =>
    if avail then .proceed
    else if ok = false then .returnFailed
    else serviceWait rest

/-- Distance value a cycle computes from its pose sample (lines 151-153):
the `hypotf` of the componentwise difference between the reference initial
pose and the latest pose sample.  The `none` branch is a dummy: a cycle
with no pose sample publishes no feedback. -/
def cycleDistance (hypotf : ℚ → ℚ → ℚ) (st : ManeuverState) (env : CycleEnv) : ℚ :=
  match env.pose with
  | none => 0
  | some cp => hypotf (st.initial_x - cp.x) (st.initial_y - cp.y)

/-- Concrete one-row grid builder used by the witnesses and
counterexamples below: resolution 1, origin `(0, 0)`, one row of cells. -/
def rowGrid (cells : List ℕ) : Costmap :=
  ⟨⟨1, 0, 0, cells.length, 1⟩, cells⟩

/-- Concrete pose used by the witnesses and counterexamples below: the
center of cell `(0, 0)` of a `rowGrid`.  With ray direction functions
`cosf a = a` (or `a + 1`) and `sinf a = 0`, the radial sample of heading
`a` at distance 1 lands in cell `a` (or `a + 1`), so a cell list directly
encodes a safety pattern over the swept headings. -/
def poseHalf : Pose2D := ⟨1/2, 1/2, 0⟩

/-- Concrete behavior object used by the witnesses and counterexamples
below (the parameter values are irrelevant to every returned value). -/
def selfDefault : BackUpFreeSpace := onConfigure "map" (1/10) 1 "svc" 5 false

/-- Arithmetic view of a contiguous block of swept angles:
`angList s i b len = [s + b*i, s + (b+1)*i, ..., s + (b+len-1)*i]`. -/
def angList (s i : ℚ) : ℕ → ℕ → List ℚ
  | _, 0 => []
  | b, len + 1 => (s + b * i) :: angList s i (b + 1) len

theorem angList_eq_range_map (s i : ℚ) (len b : ℕ) :
    angList s i b len =
      (List.range len).map fun k : ℕ => s + ((b : ℚ) + (k : ℚ)) * i := by
  induction len generalizing b with
  | zero => simp [angList]
  | succ len ih =>
    show (s + b * i) :: angList s i (b + 1) len = _
    rw [List.range_succ_eq_map, ih (b + 1)]
    simp only [List.map_cons, List.map_map, List.cons.injEq]
    constructor
    · push_cast; ring
    · apply List.map_congr_left
      intro k _
      simp only [Function.comp_apply]
      push_cast; ring

theorem sweepAngles_eq_angList (start endA inc : ℚ) :
    sweepAngles start endA inc = angList start inc 0 (sweepCount start endA inc) := by
  rw [angList_eq_range_map, sweepAngles]
  apply List.map_congr_left
  intro k _
  push_cast; ring

theorem angList_append (s i : ℚ) (b m n : ℕ) :
    angList s i b (m + n) = angList s i b m ++ angList s i (b + m) n := by
  induction m generalizing b with
  | zero => simp [angList]
  | succ m ih =>
    have : m + 1 + n = (m + n) + 1 := by omega
    rw [this, angList, angList, ih (b + 1)]
    simp only [List.cons_append, List.cons.injEq, true_and]
    have : b + 1 + m = b + (m + 1) := by omega
    rw [this]

theorem mem_angList {s i a : ℚ} {b len : ℕ} (h : a ∈ angList s i b len) :
    ∃ k : ℕ, k < len ∧ a = s + ((b : ℚ) + (k : ℚ)) * i := by
  induction len generalizing b with
  | zero => simp [angList] at h
  | succ len ih =>
    rw [angList, List.mem_cons] at h
    rcases h with h | h
    · exact ⟨0, by omega, by rw [h]; push_cast; ring⟩
    · obtain ⟨k, hk, ha⟩ := ih h
      exact ⟨k + 1, by omega, by rw [ha]; push_cast; ring⟩

theorem stepSweep_clean_blocked {safe : ℚ → Bool} {a : ℚ} (ha : safe a = false)
    (F1 F2 : ℚ) :
    stepSweep safe ⟨-1, -1, F1, F2⟩ a = ⟨-1, -1, F1, F2⟩ := by
  simp [stepSweep, ha]

theorem stepSweep_clean_safe {safe : ℚ → Bool} {a : ℚ} (ha : safe a = true)
    (F1 F2 : ℚ) :
    stepSweep safe ⟨-1, -1, F1, F2⟩ a = ⟨a, -1, F1, F2⟩ := by
  simp [stepSweep, ha]

theorem stepSweep_run_safe {safe : ℚ → Bool} {a f : ℚ} (ha : safe a = true)
    (hf : f ≠ -1) (F1 F2 : ℚ) :
    stepSweep safe ⟨f, -1, F1, F2⟩ a = ⟨f, -1, F1, F2⟩ := by
  simp [stepSweep, ha, hf]

theorem stepSweep_close {safe : ℚ → Bool} {a f : ℚ} (ha : safe a = false)
    (hf : f ≠ -1) (hA : a ≠ -1) (F1 F2 : ℚ) :
    stepSweep safe ⟨f, -1, F1, F2⟩ a =
      if F2 - F1 < a - f then ⟨-1, -1, f, a⟩ else ⟨f, a, F1, F2⟩ := by
  simp only [stepSweep, ha]
  split_ifs with h1 h2 h3 h4 h5 <;> simp_all

theorem stepSweep_stuck {safe : ℚ → Bool} {f u F1 F2 : ℚ} (hf : f ≠ -1)
    (hu : u ≠ -1) (hw : ¬ F2 - F1 < u - f) (a : ℚ) :
    stepSweep safe ⟨f, u, F1, F2⟩ a = ⟨f, u, F1, F2⟩ := by
  simp [stepSweep, hf, hu]
  intro h
  cases h' : safe a <;> simp_all

theorem foldl_clean_blocked {safe : ℚ → Bool} {l : List ℚ}
    (h : ∀ a ∈ l, safe a = false) (F1 F2 : ℚ) :
    l.foldl (stepSweep safe) ⟨-1, -1, F1, F2⟩ = ⟨-1, -1, F1, F2⟩ := by
  induction l with
  | nil => rfl
  | cons a l ih =>
    rw [List.foldl_cons, stepSweep_clean_blocked (h a (by simp))]
    exact ih fun x hx => h x (by simp [hx])

theorem foldl_run_safe {safe : ℚ → Bool} {l : List ℚ} {f : ℚ}
    (h : ∀ a ∈ l, safe a = true) (hf : f ≠ -1) (F1 F2 : ℚ) :
    l.foldl (stepSweep safe) ⟨f, -1, F1, F2⟩ = ⟨f, -1, F1, F2⟩ := by
  induction l with
  | nil => rfl
  | cons a l ih =>
    rw [List.foldl_cons, stepSweep_run_safe (h a (by simp)) hf]
    exact ih fun x hx => h x (by simp [hx])

theorem foldl_safe_keeps {safe : ℚ → Bool} {l : List ℚ}
    (h : ∀ a ∈ l, safe a = true) (f F1 F2 : ℚ) :
    ∃ f2, l.foldl (stepSweep safe) ⟨f, -1, F1, F2⟩ = ⟨f2, -1, F1, F2⟩ := by
  induction l generalizing f with
  | nil => exact ⟨f, rfl⟩
  | cons a l ih =>
    rw [List.foldl_cons]
    have ha := h a (by simp)
    have hstep : ∃ f1, stepSweep safe ⟨f, -1, F1, F2⟩ a = ⟨f1, -1, F1, F2⟩ := by
      by_cases hf : f = -1
      · exact ⟨a, by rw [hf]; exact stepSweep_clean_safe ha F1 F2⟩
      · exact ⟨f, stepSweep_run_safe ha hf F1 F2⟩
    obtain ⟨f1, hs⟩ := hstep
    rw [hs]
    exact ih (fun x hx => h x (by simp [hx])) f1

theorem foldl_stuck {safe : ℚ → Bool} {f u F1 F2 : ℚ} (hf : f ≠ -1)
    (hu : u ≠ -1) (hw : ¬ F2 - F1 < u - f) (l : List ℚ) :
    l.foldl (stepSweep safe) ⟨f, u, F1, F2⟩ = ⟨f, u, F1, F2⟩ := by
  induction l with
  | nil => rfl
  | cons a l ih => rw [List.foldl_cons, stepSweep_stuck hf hu hw a]; exact ih

theorem foldl_angSeg_blocked {safe : ℚ → Bool} {s i : ℚ} {b len : ℕ}
    (h : ∀ k : ℕ, k < len → safe (s + ((b + k : ℕ) : ℚ) * i) = false)
    (F1 F2 : ℚ) :
    (angList s i b len).foldl (stepSweep safe) ⟨-1, -1, F1, F2⟩ =
      ⟨-1, -1, F1, F2⟩ := by
  refine foldl_clean_blocked (fun a ha => ?_) F1 F2
  obtain ⟨k, hk, rfl⟩ := mem_angList ha
  have e : s + ((b : ℚ) + (k : ℚ)) * i = s + ((b + k : ℕ) : ℚ) * i := by
    push_cast; ring
  rw [e]
  exact h k hk

theorem foldl_angSeg_arc {safe : ℚ → Bool} {s i : ℚ} {b len : ℕ}
    (hlen : 0 < len)
    (h : ∀ k : ℕ, k < len → safe (s + ((b + k : ℕ) : ℚ) * i) = true)
    (hb : s + ((b : ℕ) : ℚ) * i ≠ -1) (F1 F2 : ℚ) :
    (angList s i b len).foldl (stepSweep safe) ⟨-1, -1, F1, F2⟩ =
      ⟨s + ((b : ℕ) : ℚ) * i, -1, F1, F2⟩ := by
  obtain ⟨m, rfl⟩ : ∃ m, len = m + 1 := ⟨len - 1, by omega⟩
  show (angList s i b (m + 1)).foldl _ _ = _
  rw [show angList s i b (m + 1) = (s + (b : ℚ) * i) :: angList s i (b + 1) m
    from rfl]
  rw [List.foldl_cons]
  have hb' : safe (s + (b : ℚ) * i) = true := by
    have := h 0 (by omega)
    simpa using this
  rw [stepSweep_clean_safe hb' F1 F2]
  refine foldl_run_safe (fun a ha => ?_) hb F1 F2
  obtain ⟨k, hk, rfl⟩ := mem_angList ha
  have e : s + ((b + 1 : ℕ) + (k : ℚ)) * i = s + ((b + (k + 1) : ℕ) : ℚ) * i := by
    push_cast; ring
  rw [e]
  exact h (k + 1) (by omega)

theorem foldl_single_arc_pattern (safe : ℚ → Bool) (s i : ℚ) (hi : 0 < i)
    (n p q : ℕ) (hpq : p ≤ q) (hqn : q + 1 < n)
    (hsp : s + (p : ℚ) * i ≠ -1) (hsc : s + ((q + 1 : ℕ) : ℚ) * i ≠ -1)
    (hsafe : ∀ k : ℕ, k < n →
      (safe (s + (k : ℚ) * i) = true ↔ p ≤ k ∧ k ≤ q)) :
    (angList s i 0 n).foldl (stepSweep safe) initSweepState =
      ⟨-1, -1, s + (p : ℚ) * i, s + ((q + 1 : ℕ) : ℚ) * i⟩ := by
  have hcoll : ∀ k : ℕ, k < n → ¬ (p ≤ k ∧ k ≤ q) → safe (s + (k : ℚ) * i) = false := by
    intro k hk hnot
    rw [Bool.eq_false_iff]
    intro hT
    exact hnot ((hsafe k hk).mp hT)
  rw [show n = p + ((q + 1 - p) + (1 + (n - (q + 2)))) from by omega,
    angList_append, angList_append]
  rw [show (0 : ℕ) + p = p from by omega,
    show p + (q + 1 - p) = q + 1 from by omega]
  rw [show 1 + (n - (q + 2)) = (n - (q + 2)) + 1 from by omega]
  rw [show angList s i (q + 1) ((n - (q + 2)) + 1) =
    (s + ((q + 1 : ℕ) : ℚ) * i) :: angList s i ((q + 1) + 1) (n - (q + 2)) from rfl]
  rw [List.foldl_append, List.foldl_append]
  rw [show initSweepState = (⟨-1, -1, 0, 0⟩ : SweepState) from rfl]
  rw [foldl_angSeg_blocked (fun k hk => hcoll (0 + k) (by omega) (by omega)) 0 0]
  rw [foldl_angSeg_arc (by omega)
    (fun k hk => (hsafe (p + k) (by omega)).mpr (by omega)) hsp 0 0]
  rw [List.foldl_cons]
  rw [stepSweep_close (hcoll (q + 1) (by omega) (by omega)) hsp hsc 0 0]
  have hlt : (0 : ℚ) - 0 < (s + ((q + 1 : ℕ) : ℚ) * i) - (s + (p : ℚ) * i) := by
    push_cast
    have : (p : ℚ) < (q : ℚ) + 1 := by
      have : (p : ℚ) ≤ (q : ℚ) := by exact_mod_cast hpq
      linarith
    nlinarith
  rw [if_pos hlt]
  exact foldl_angSeg_blocked (fun k hk => hcoll ((q + 1 + 1) + k) (by omega) (by omega)) _ _

theorem foldl_two_arc_pattern (safe : ℚ → Bool) (s i : ℚ) (hi : 0 < i)
    (n p1 q1 p2 q2 : ℕ)
    (h11 : p1 ≤ q1) (hgap : q1 + 1 < p2) (h22 : p2 ≤ q2) (hend : q2 + 1 < n)
    (hs1 : s + (p1 : ℚ) * i ≠ -1) (hc1 : s + ((q1 + 1 : ℕ) : ℚ) * i ≠ -1)
    (hs2 : s + (p2 : ℚ) * i ≠ -1) (hc2 : s + ((q2 + 1 : ℕ) : ℚ) * i ≠ -1)
    (hsafe : ∀ k : ℕ, k < n →
      (safe (s + (k : ℚ) * i) = true ↔ (p1 ≤ k ∧ k ≤ q1) ∨ (p2 ≤ k ∧ k ≤ q2))) :
    (angList s i 0 n).foldl (stepSweep safe) initSweepState =
      if q1 + 1 - p1 < q2 + 1 - p2 then
        ⟨-1, -1, s + (p2 : ℚ) * i, s + ((q2 + 1 : ℕ) : ℚ) * i⟩
      else
        ⟨s + (p2 : ℚ) * i, s + ((q2 + 1 : ℕ) : ℚ) * i,
          s + (p1 : ℚ) * i, s + ((q1 + 1 : ℕ) : ℚ) * i⟩ := by
  have hcoll : ∀ k : ℕ, k < n → ¬ ((p1 ≤ k ∧ k ≤ q1) ∨ (p2 ≤ k ∧ k ≤ q2)) →
      safe (s + (k : ℚ) * i) = false := by
    intro k hk hnot
    rw [Bool.eq_false_iff]
    intro hT
    exact hnot ((hsafe k hk).mp hT)
  rw [show n = p1 + ((q1 + 1 - p1) + (1 + ((p2 - (q1 + 2)) +
      ((q2 + 1 - p2) + (1 + (n - (q2 + 2))))))) from by omega]
  rw [angList_append, angList_append]
  rw [show (0 : ℕ) + p1 = p1 from by omega,
    show p1 + (q1 + 1 - p1) = q1 + 1 from by omega]
  rw [show 1 + ((p2 - (q1 + 2)) + ((q2 + 1 - p2) + (1 + (n - (q2 + 2))))) =
    ((p2 - (q1 + 2)) + ((q2 + 1 - p2) + (1 + (n - (q2 + 2))))) + 1 from by omega]
  rw [show angList s i (q1 + 1)
      (((p2 - (q1 + 2)) + ((q2 + 1 - p2) + (1 + (n - (q2 + 2))))) + 1) =
    (s + ((q1 + 1 : ℕ) : ℚ) * i) :: angList s i ((q1 + 1) + 1)
      ((p2 - (q1 + 2)) + ((q2 + 1 - p2) + (1 + (n - (q2 + 2))))) from rfl]
  rw [angList_append]
  rw [show (q1 + 1) + 1 + (p2 - (q1 + 2)) = p2 from by omega]
  rw [angList_append]
  rw [show p2 + (q2 + 1 - p2) = q2 + 1 from by omega]
  rw [show 1 + (n - (q2 + 2)) = (n - (q2 + 2)) + 1 from by omega]
  rw [show angList s i (q2 + 1) ((n - (q2 + 2)) + 1) =
    (s + ((q2 + 1 : ℕ) : ℚ) * i) :: angList s i ((q2 + 1) + 1) (n - (q2 + 2))
    from rfl]
  rw [show initSweepState = (⟨-1, -1, 0, 0⟩ : SweepState) from rfl]
  rw [List.foldl_append, List.foldl_append, List.foldl_cons, List.foldl_append,
    List.foldl_append, List.foldl_cons]
  rw [foldl_angSeg_blocked (fun k hk => hcoll (0 + k) (by omega) (by omega)) 0 0]
  rw [foldl_angSeg_arc (by omega)
    (fun k hk => (hsafe (p1 + k) (by omega)).mpr (by omega)) hs1 0 0]
  rw [stepSweep_close (hcoll (q1 + 1) (by omega) (by omega)) hs1 hc1 0 0]
  have hlt1 : (0 : ℚ) - 0 < (s + ((q1 + 1 : ℕ) : ℚ) * i) - (s + (p1 : ℚ) * i) := by
    have : (p1 : ℚ) < ((q1 + 1 : ℕ) : ℚ) := by exact_mod_cast Nat.lt_succ_of_le h11
    nlinarith
  rw [if_pos hlt1]
  rw [foldl_angSeg_blocked
    (fun k hk => hcoll ((q1 + 1 + 1) + k) (by omega) (by omega)) _ _]
  rw [foldl_angSeg_arc (by omega)
    (fun k hk => (hsafe (p2 + k) (by omega)).mpr (by omega)) hs2 _ _]
  rw [stepSweep_close (hcoll (q2 + 1) (by omega) (by omega)) hs2 hc2 _ _]
  have harith : ((s + ((q1 + 1 : ℕ) : ℚ) * i) - (s + (p1 : ℚ) * i) <
      (s + ((q2 + 1 : ℕ) : ℚ) * i) - (s + (p2 : ℚ) * i)) ↔
      (q1 + 1 - p1 < q2 + 1 - p2) := by
    have e1 : (s + ((q1 + 1 : ℕ) : ℚ) * i) - (s + (p1 : ℚ) * i) =
        ((q1 + 1 - p1 : ℕ) : ℚ) * i := by
      have : ((q1 + 1 - p1 : ℕ) : ℚ) = ((q1 : ℚ) + 1) - (p1 : ℚ) := by
        have : p1 ≤ q1 + 1 := by omega
        push_cast [Nat.cast_sub this]
        ring
      rw [this]; push_cast; ring
    have e2 : (s + ((q2 + 1 : ℕ) : ℚ) * i) - (s + (p2 : ℚ) * i) =
        ((q2 + 1 - p2 : ℕ) : ℚ) * i := by
      have : ((q2 + 1 - p2 : ℕ) : ℚ) = ((q2 : ℚ) + 1) - (p2 : ℚ) := by
        have : p2 ≤ q2 + 1 := by omega
        push_cast [Nat.cast_sub this]
        ring
      rw [this]; push_cast; ring
    rw [e1, e2, mul_lt_mul_right hi, Nat.cast_lt]
  by_cases hw : q1 + 1 - p1 < q2 + 1 - p2
  · rw [if_pos (harith.mpr hw), if_pos hw]
    exact foldl_angSeg_blocked
      (fun k hk => hcoll ((q2 + 1 + 1) + k) (by omega) (by omega)) _ _
  · rw [if_neg (fun hcon => hw (harith.mp hcon)), if_neg hw]
    exact foldl_stuck hs2 hc2 (fun hcon => hw (harith.mp hcon)) _

theorem cellIndex_half_add (n : ℕ) : cellIndex 0 1 (1/2 + (n : ℚ)) = (n : ℤ) := by
  have h0 : (0 : ℚ) ≤ 1/2 + (n : ℚ) := by positivity
  rw [cellIndex, cTrunc, if_pos (by rw [sub_zero, div_one]; exact h0)]
  rw [sub_zero, div_one, Int.floor_add_nat]
  norm_num

theorem sampleOk_rowGrid (cells : List ℕ) (n : ℕ) :
    sampleOk (rowGrid cells) (1/2 + (n : ℚ)) (1/2) = true ↔
      n < cells.length ∧ cells.getD n 0 < 253 := by
  have hct : cellIndex 0 1 (1/2 + (n : ℚ)) = (n : ℤ) := cellIndex_half_add n
  have hct0 : cellIndex 0 1 (1/2 : ℚ) = 0 := by
    have := cellIndex_half_add 0
    norm_num at this
    exact this
  have hcv : cellValue (rowGrid cells) (n : ℤ) 0 = cells.getD n 0 := by
    simp [cellValue, rowGrid, Int.toNat_natCast]
  by_cases hn : n < cells.length
  · have hbox : inBox (rowGrid cells) (1/2 + (n : ℚ)) (1/2) = true := by
      simp only [inBox, rowGrid, decide_eq_true_eq]
      refine ⟨by positivity, ?_, by norm_num, by norm_num⟩
      push_cast
      have : (n : ℚ) + 1 ≤ cells.length := by exact_mod_cast hn
      linarith
    have hidx : idxOk (rowGrid cells) ((n : ℤ)) 0 = true := by
      simp only [idxOk, rowGrid, decide_eq_true_eq]
      refine ⟨by positivity, ?_, by norm_num, by norm_num⟩
      exact_mod_cast hn
    simp only [sampleOk,
      show (rowGrid cells).metadata.origin_x = 0 from rfl,
      show (rowGrid cells).metadata.origin_y = 0 from rfl,
      show (rowGrid cells).metadata.resolution = 1 from rfl,
      hct, hct0, hbox, hidx, if_true, decide_eq_true_eq, hcv]
    simp [hn]
  · have hbox : inBox (rowGrid cells) (1/2 + (n : ℚ)) (1/2) = false := by
      simp only [inBox, rowGrid, decide_eq_false_iff_not]
      intro hcon
      have h2 := hcon.2.1
      push_cast at h2
      have : (cells.length : ℚ) ≤ n := by exact_mod_cast Nat.le_of_not_lt hn
      linarith
    simp only [sampleOk, hbox]
    simp [hn]

/-- Evaluation of the heading classification over a concrete one-row grid
with unit-step ray direction functions: heading `n` is safe exactly when
the robot cell (cell 0) and cell `n` both exist and are below the lethal
literal. -/
theorem isSafeHeading_rowGrid (cells : List ℕ) (n : ℕ) :
    isSafeHeading (rowGrid cells) poseHalf 1 id (fun _ => 0) (n : ℚ) = true ↔
      (0 < cells.length ∧ cells.getD 0 0 < 253) ∧
      (n < cells.length ∧ cells.getD n 0 < 253) := by
  have e0 : samplePoint poseHalf id (fun _ => 0) (n : ℚ) (((0 : ℕ) : ℚ) * 1) =
      (1/2 + ((0 : ℕ) : ℚ), 1/2) := by
    simp [samplePoint, poseHalf]
  have e1 : samplePoint poseHalf id (fun _ => 0) (n : ℚ) (((1 : ℕ) : ℚ) * 1) =
      (1/2 + (n : ℚ), 1/2) := by
    simp [samplePoint, poseHalf]
  simp only [isSafeHeading,
    show (rowGrid cells).metadata.resolution = 1 from rfl,
    show numRaySteps 1 1 = 2 from by norm_num [numRaySteps],
    show List.range 2 = [0, 1] from rfl,
    List.all_cons, List.all_nil, Bool.and_true, Bool.and_eq_true]
  rw [e0, e1, sampleOk_rowGrid cells 0, sampleOk_rowGrid cells n]

/-- C2, counterexample: with one sweep step per unit angle, grid
`[0, 255, 0, 0]` (resolution 1, one row), pose `(1/2, 1/2)` and ray
direction functions mapping angle `a` to the unit step `(a + 1, 0)`, the
sweep over angles `0, 1, 2` classifies exactly the single contiguous arc
`{1, 2}` as safe and every other swept heading (angle `0`) as unsafe.
The arc has midpoint `3/2`, but because it extends through the final
sweep angle it is never recorded, and `findBestDirection` returns `0`,
which is not within one angle-step (`1`) of the midpoint.  The direction
functions stand in for `cos`/`sin`; only their rational values at the
three swept angles matter. -/
theorem C2_counterexample :
    isSafeHeading (rowGrid [0, 255, 0, 0]) poseHalf 1
      (fun a => a + 1) (fun _ => 0) 0 = false ∧
    isSafeHeading (rowGrid [0, 255, 0, 0]) poseHalf 1
      (fun a => a + 1) (fun _ => 0) 1 = true ∧
    isSafeHeading (rowGrid [0, 255, 0, 0]) poseHalf 1
      (fun a => a + 1) (fun _ => 0) 2 = true ∧
    sweepAngles 0 2 1 = [0, 1, 2] ∧
    selfDefault.findBestDirection (fun a => a + 1) (fun _ => 0)
      (rowGrid [0, 255, 0, 0]) poseHalf 0 2 1 1 = 0 ∧
    ¬ |(0 : ℚ) - 3/2| ≤ 1 := by
  have h0 : isSafeHeading (rowGrid [0, 255, 0, 0]) poseHalf 1
      (fun a => a + 1) (fun _ => 0) 0 = false := by
    norm_num [isSafeHeading, numRaySteps, List.range_succ, samplePoint,
      sampleOk, inBox, idxOk, cellIndex, cellValue, cTrunc, rowGrid, poseHalf,
      List.getD_cons_zero, List.getD_cons_succ]
  have h1 : isSafeHeading (rowGrid [0, 255, 0, 0]) poseHalf 1
      (fun a => a + 1) (fun _ => 0) 1 = true := by
    norm_num [isSafeHeading, numRaySteps, List.range_succ, samplePoint,
      sampleOk, inBox, idxOk, cellIndex, cellValue, cTrunc, rowGrid, poseHalf,
      List.getD_cons_zero, List.getD_cons_succ]
    decide
  have h2 : isSafeHeading (rowGrid [0, 255, 0, 0]) poseHalf 1
      (fun a => a + 1) (fun _ => 0) 2 = true := by
    norm_num [isSafeHeading, numRaySteps, List.range_succ, samplePoint,
      sampleOk, inBox, idxOk, cellIndex, cellValue, cTrunc, rowGrid, poseHalf,
      List.getD_cons_zero, List.getD_cons_succ]
    decide
  have hang : sweepAngles 0 2 1 = [0, 1, 2] := by
    norm_num [sweepAngles, sweepCount]
    simp [List.range_succ]
  have habs : ¬ |(0 : ℚ) - 3/2| ≤ 1 := by
    rw [show |(0 : ℚ) - 3/2| = 3/2 from by rw [abs_sub_comm]; simp; norm_num]
    norm_num
  refine ⟨h0, h1, h2, hang, ?_, habs⟩
  simp only [BackUpFreeSpace.findBestDirection]
  rw [hang]
  simp only [List.foldl_cons, List.foldl_nil]
  rw [show initSweepState = (⟨-1, -1, 0, 0⟩ : SweepState) from rfl]
  rw [stepSweep_clean_blocked h0, stepSweep_clean_safe h1,
    stepSweep_run_safe h2 (by norm_num)]
  norm_num

/-- C2 (amended): for every grid in which the safety classification of the
swept headings consists of exactly one contiguous safe arc, PROVIDED the
arc is followed by at least one unsafe swept heading (an arc extending
through the final sweep angle is never recorded and the result degenerates
to 0, see the counterexample) and no swept angle collides with the
internal sentinel value `-1`, `findBestDirection` returns the midpoint of
the half-open span from the first angle of the arc to the first unsafe
angle after it, which is within one angle-step of the arc midpoint. -/
theorem C2_single_arc_midpoint
    (self : BackUpFreeSpace) (cosf sinf : ℚ → ℚ) (cm : Costmap) (pose : Pose2D)
    (start endA radius inc : ℚ) (p q : ℕ)
    (hinc : 0 < inc) (hpq : p ≤ q) (hqn : q + 1 < sweepCount start endA inc)
    (hsent : ∀ k : ℕ, k < sweepCount start endA inc →
      start + (k : ℚ) * inc ≠ -1)
    (hsafe : ∀ k : ℕ, k < sweepCount start endA inc →
      (isSafeHeading cm pose radius cosf sinf (start + (k : ℚ) * inc) = true ↔
        p ≤ k ∧ k ≤ q)) :
    self.findBestDirection cosf sinf cm pose start endA radius inc =
      ((start + (p : ℚ) * inc) + (start + ((q + 1 : ℕ) : ℚ) * inc)) / 2 ∧
    |self.findBestDirection cosf sinf cm pose start endA radius inc -
      ((start + (p : ℚ) * inc) + (start + (q : ℚ) * inc)) / 2| ≤ inc := by
  have hmain : self.findBestDirection cosf sinf cm pose start endA radius inc =
      ((start + (p : ℚ) * inc) + (start + ((q + 1 : ℕ) : ℚ) * inc)) / 2 := by
    simp only [BackUpFreeSpace.findBestDirection]
    rw [sweepAngles_eq_angList]
    rw [foldl_single_arc_pattern (isSafeHeading cm pose radius cosf sinf)
      start inc hinc _ p q hpq hqn (hsent p (by omega)) (hsent (q + 1) hqn)
      hsafe]
  refine ⟨hmain, ?_⟩
  rw [hmain]
  have e : ((start + (p : ℚ) * inc) + (start + ((q + 1 : ℕ) : ℚ) * inc)) / 2 -
      ((start + (p : ℚ) * inc) + (start + (q : ℚ) * inc)) / 2 = inc / 2 := by
    push_cast; ring
  rw [e, abs_of_pos (by linarith)]
  linarith


/-- C1 (amended): for every grid whose swept headings contain exactly two
candidate free arcs of different angular widths, PROVIDED each arc is
followed by at least one unsafe swept heading (an arc extending through
the final sweep angle is never recorded, see the counterexample) and no
swept angle collides with the internal sentinel value `-1`,
`findBestDirection` returns the midpoint of the half-open span of the
strictly wider arc (its first angle to the first unsafe angle after it),
which is within one angle-step of the wider arc midpoint, regardless of
which of the two arcs is wider or where each lies in the scan order. -/
theorem C1_two_arcs_widest
    (self : BackUpFreeSpace) (cosf sinf : ℚ → ℚ) (cm : Costmap) (pose : Pose2D)
    (start endA radius inc : ℚ) (p1 q1 p2 q2 : ℕ)
    (hinc : 0 < inc) (h11 : p1 ≤ q1) (hgap : q1 + 1 < p2) (h22 : p2 ≤ q2)
    (hend : q2 + 1 < sweepCount start endA inc)
    (hsent : ∀ k : ℕ, k < sweepCount start endA inc →
      start + (k : ℚ) * inc ≠ -1)
    (hsafe : ∀ k : ℕ, k < sweepCount start endA inc →
      (isSafeHeading cm pose radius cosf sinf (start + (k : ℚ) * inc) = true ↔
        (p1 ≤ k ∧ k ≤ q1) ∨ (p2 ≤ k ∧ k ≤ q2))) :
    (q1 + 1 - p1 < q2 + 1 - p2 →
      self.findBestDirection cosf sinf cm pose start endA radius inc =
        ((start + (p2 : ℚ) * inc) + (start + ((q2 + 1 : ℕ) : ℚ) * inc)) / 2 ∧
      |self.findBestDirection cosf sinf cm pose start endA radius inc -
        ((start + (p2 : ℚ) * inc) + (start + (q2 : ℚ) * inc)) / 2| ≤ inc) ∧
    (q2 + 1 - p2 < q1 + 1 - p1 →
      self.findBestDirection cosf sinf cm pose start endA radius inc =
        ((start + (p1 : ℚ) * inc) + (start + ((q1 + 1 : ℕ) : ℚ) * inc)) / 2 ∧
      |self.findBestDirection cosf sinf cm pose start endA radius inc -
        ((start + (p1 : ℚ) * inc) + (start + (q1 : ℚ) * inc)) / 2| ≤ inc) := by
  have hfold := foldl_two_arc_pattern (isSafeHeading cm pose radius cosf sinf)
    start inc hinc (sweepCount start endA inc) p1 q1 p2 q2 h11 hgap h22 hend
    (hsent p1 (by omega)) (hsent (q1 + 1) (by omega))
    (hsent p2 (by omega)) (hsent (q2 + 1) (by omega)) hsafe
  constructor
  · intro hw
    have hD : self.findBestDirection cosf sinf cm pose start endA radius inc =
        ((start + (p2 : ℚ) * inc) + (start + ((q2 + 1 : ℕ) : ℚ) * inc)) / 2 := by
      simp only [BackUpFreeSpace.findBestDirection]
      rw [sweepAngles_eq_angList, hfold, if_pos hw]
    refine ⟨hD, ?_⟩
    rw [hD]
    have e : ((start + (p2 : ℚ) * inc) + (start + ((q2 + 1 : ℕ) : ℚ) * inc)) / 2 -
        ((start + (p2 : ℚ) * inc) + (start + (q2 : ℚ) * inc)) / 2 = inc / 2 := by
      push_cast
      ring
    rw [e, abs_of_pos (by linarith)]
    linarith
  · intro hw
    have hnw : ¬ (q1 + 1 - p1 < q2 + 1 - p2) := by omega
    have hD : self.findBestDirection cosf sinf cm pose start endA radius inc =
        ((start + (p1 : ℚ) * inc) + (start + ((q1 + 1 : ℕ) : ℚ) * inc)) / 2 := by
      simp only [BackUpFreeSpace.findBestDirection]
      rw [sweepAngles_eq_angList, hfold, if_neg hnw]
    refine ⟨hD, ?_⟩
    rw [hD]
    have e : ((start + (p1 : ℚ) * inc) + (start + ((q1 + 1 : ℕ) : ℚ) * inc)) / 2 -
        ((start + (p1 : ℚ) * inc) + (start + (q1 : ℚ) * inc)) / 2 = inc / 2 := by
      push_cast
      ring
    rw [e, abs_of_pos (by linarith)]
    linarith


/-- C2, witness: six swept headings over grid `[0, 0, 255, 255, 255, 255]`
give the single closed arc `{0, 1}`; the amended theorem yields the
half-open-span midpoint `1`, within one angle-step of the arc midpoint
`1/2`. -/
theorem C2_witness :
    selfDefault.findBestDirection id (fun _ => 0)
      (rowGrid [0, 0, 255, 255, 255, 255]) poseHalf 0 5 1 1 = 1 ∧
    |selfDefault.findBestDirection id (fun _ => 0)
      (rowGrid [0, 0, 255, 255, 255, 255]) poseHalf 0 5 1 1 - 1/2| ≤ 1 := by
  have hcount : sweepCount 0 5 1 = 6 := by
    norm_num [sweepCount]
    decide
  have hsent : ∀ k : ℕ, k < sweepCount 0 5 1 → (0 : ℚ) + (k : ℚ) * 1 ≠ -1 := by
    intro k hk
    have h0 : (0 : ℚ) ≤ (k : ℚ) := Nat.cast_nonneg k
    intro hcon
    rw [zero_add, mul_one] at hcon
    rw [hcon] at h0
    norm_num at h0
  have hsafe : ∀ k : ℕ, k < sweepCount 0 5 1 →
      (isSafeHeading (rowGrid [0, 0, 255, 255, 255, 255]) poseHalf 1 id
        (fun _ => 0) ((0 : ℚ) + (k : ℚ) * 1) = true ↔ 0 ≤ k ∧ k ≤ 1) := by
    intro k hk
    rw [hcount] at hk
    rw [zero_add, mul_one, isSafeHeading_rowGrid]
    interval_cases k <;> decide
  have h := C2_single_arc_midpoint selfDefault id (fun _ => 0)
    (rowGrid [0, 0, 255, 255, 255, 255]) poseHalf 0 5 1 1 0 1
    (by norm_num) (by norm_num) (by rw [hcount]; norm_num) hsent hsafe
  obtain ⟨he, hb⟩ := h
  norm_num at he hb
  exact ⟨he, hb⟩

/-- C1, counterexample: with one sweep step per unit angle, grid
`[0, 255, 0, 0]` and unit-step ray direction functions, the sweep over
angles `0, 1, 2, 3` contains two candidate free arcs of different widths:
`{0}` (one heading) and `{2, 3}` (two headings).  The strictly wider arc
`{2, 3}` has midpoint `5/2`, but because it extends through the final
sweep angle it is never recorded, and `findBestDirection` returns `1/2`
(the recorded span of the NARROWER arc), which is not within one
angle-step of the wider arc midpoint. -/
theorem C1_counterexample :
    isSafeHeading (rowGrid [0, 255, 0, 0]) poseHalf 1 id (fun _ => 0) 0
      = true ∧
    isSafeHeading (rowGrid [0, 255, 0, 0]) poseHalf 1 id (fun _ => 0) 1
      = false ∧
    isSafeHeading (rowGrid [0, 255, 0, 0]) poseHalf 1 id (fun _ => 0) 2
      = true ∧
    isSafeHeading (rowGrid [0, 255, 0, 0]) poseHalf 1 id (fun _ => 0) 3
      = true ∧
    sweepAngles 0 3 1 = [0, 1, 2, 3] ∧
    selfDefault.findBestDirection id (fun _ => 0)
      (rowGrid [0, 255, 0, 0]) poseHalf 0 3 1 1 = 1/2 ∧
    ¬ |(1/2 : ℚ) - 5/2| ≤ 1 := by
  have hpat : ∀ k : ℕ, k < 4 →
      (isSafeHeading (rowGrid [0, 255, 0, 0]) poseHalf 1 id (fun _ => 0)
        (k : ℚ) = true ↔ k = 0 ∨ (2 ≤ k ∧ k ≤ 3)) := by
    intro k hk
    rw [isSafeHeading_rowGrid]
    interval_cases k <;> decide
  have hang : sweepAngles 0 3 1 = [0, 1, 2, 3] := by
    norm_num [sweepAngles, sweepCount]
    simp [List.range_succ]
  have s0 : isSafeHeading (rowGrid [0, 255, 0, 0]) poseHalf 1 id
      (fun _ => 0) 0 = true := by
    have := hpat 0 (by omega)
    norm_num at this
    exact this
  have s1 : isSafeHeading (rowGrid [0, 255, 0, 0]) poseHalf 1 id
      (fun _ => 0) 1 = false := by
    have := hpat 1 (by omega)
    norm_num at this
    exact this
  have s2 : isSafeHeading (rowGrid [0, 255, 0, 0]) poseHalf 1 id
      (fun _ => 0) 2 = true := by
    have := hpat 2 (by omega)
    norm_num at this
    exact this
  have s3 : isSafeHeading (rowGrid [0, 255, 0, 0]) poseHalf 1 id
      (fun _ => 0) 3 = true := by
    have := hpat 3 (by omega)
    norm_num at this
    exact this
  have habs : ¬ |(1/2 : ℚ) - 5/2| ≤ 1 := by
    rw [show |(1/2 : ℚ) - 5/2| = 2 from by rw [abs_sub_comm]; norm_num [abs_of_pos]]
    norm_num
  refine ⟨s0, s1, s2, s3, hang, ?_, habs⟩
  simp only [BackUpFreeSpace.findBestDirection]
  rw [hang]
  simp only [List.foldl_cons, List.foldl_nil]
  rw [show initSweepState = (⟨-1, -1, 0, 0⟩ : SweepState) from rfl]
  rw [stepSweep_clean_safe s0]
  rw [stepSweep_close s1 (by norm_num) (by norm_num), if_pos (by norm_num)]
  rw [stepSweep_clean_safe s2]
  rw [stepSweep_run_safe s3 (by norm_num)]
  norm_num

/-- C1, witness: eight swept headings over grid
`[0, 0, 255, 0, 0, 0, 255, 255]` give two closed arcs `{0, 1}` and
`{3, 4, 5}`; the wider second arc wins and the amended theorem yields its
half-open-span midpoint `9/2`, within one angle-step of its midpoint `4`. -/
theorem C1_witness :
    selfDefault.findBestDirection id (fun _ => 0)
      (rowGrid [0, 0, 255, 0, 0, 0, 255, 255]) poseHalf 0 7 1 1 = 9/2 ∧
    |selfDefault.findBestDirection id (fun _ => 0)
      (rowGrid [0, 0, 255, 0, 0, 0, 255, 255]) poseHalf 0 7 1 1 - 4| ≤ 1 := by
  have hcount : sweepCount 0 7 1 = 8 := by
    norm_num [sweepCount]
    decide
  have hsent : ∀ k : ℕ, k < sweepCount 0 7 1 → (0 : ℚ) + (k : ℚ) * 1 ≠ -1 := by
    intro k hk
    have h0 : (0 : ℚ) ≤ (k : ℚ) := Nat.cast_nonneg k
    intro hcon
    rw [zero_add, mul_one] at hcon
    rw [hcon] at h0
    norm_num at h0
  have hsafe : ∀ k : ℕ, k < sweepCount 0 7 1 →
      (isSafeHeading (rowGrid [0, 0, 255, 0, 0, 0, 255, 255]) poseHalf 1 id
        (fun _ => 0) ((0 : ℚ) + (k : ℚ) * 1) = true ↔
        (0 ≤ k ∧ k ≤ 1) ∨ (3 ≤ k ∧ k ≤ 5)) := by
    intro k hk
    rw [hcount] at hk
    rw [zero_add, mul_one, isSafeHeading_rowGrid]
    interval_cases k <;> decide
  have h := (C1_two_arcs_widest selfDefault id (fun _ => 0)
    (rowGrid [0, 0, 255, 0, 0, 0, 255, 255]) poseHalf 0 7 1 1 0 1 3 5
    (by norm_num) (by norm_num) (by norm_num) (by norm_num)
    (by rw [hcount]; norm_num) hsent hsafe).1 (by norm_num)
  obtain ⟨he, hb⟩ := h
  norm_num at he hb
  exact ⟨he, hb⟩

/-- C5: for every grid and pose such that every swept candidate heading is
classified unsafe, the sweep tracking state is never touched and
`findBestDirection` returns exactly `0`, the degenerate midpoint
`(0 + 0) / 2` of the untouched initial tracking values. -/
theorem C5_no_safe_arc_zero
    (self : BackUpFreeSpace) (cosf sinf : ℚ → ℚ) (cm : Costmap) (pose : Pose2D)
    (start endA radius inc : ℚ) (_hinc : 0 < inc)
    (hall : ∀ k : ℕ, k < sweepCount start endA inc →
      isSafeHeading cm pose radius cosf sinf (start + (k : ℚ) * inc) = false) :
    (sweepAngles start endA inc).foldl
      (stepSweep (isSafeHeading cm pose radius cosf sinf)) initSweepState =
      initSweepState ∧
    self.findBestDirection cosf sinf cm pose start endA radius inc = 0 := by
  have hfold : (sweepAngles start endA inc).foldl
      (stepSweep (isSafeHeading cm pose radius cosf sinf)) initSweepState =
      initSweepState := by
    rw [sweepAngles_eq_angList,
      show initSweepState = (⟨-1, -1, 0, 0⟩ : SweepState) from rfl]
    exact foldl_angSeg_blocked (fun k hk => by
      have := hall k (by omega)
      simpa using this) 0 0
  refine ⟨hfold, ?_⟩
  simp only [BackUpFreeSpace.findBestDirection]
  rw [hfold]
  norm_num [initSweepState]

/-- C5, witness: grid `[255, 255]` makes every heading unsafe (the robot
cell itself is lethal), so the result is exactly `0`. -/
theorem C5_witness :
    (sweepAngles 0 2 1).foldl
      (stepSweep (isSafeHeading (rowGrid [255, 255]) poseHalf 1 id
        (fun _ => 0))) initSweepState = initSweepState ∧
    selfDefault.findBestDirection id (fun _ => 0)
      (rowGrid [255, 255]) poseHalf 0 2 1 1 = 0 := by
  have hall : ∀ k : ℕ, k < sweepCount 0 2 1 →
      isSafeHeading (rowGrid [255, 255]) poseHalf 1 id (fun _ => 0)
        ((0 : ℚ) + (k : ℚ) * 1) = false := by
    intro k hk
    rw [zero_add, mul_one]
    rw [Bool.eq_false_iff]
    intro hT
    have := (isSafeHeading_rowGrid [255, 255] k).mp hT
    have h253 := this.1.2
    norm_num at h253
  have h := C5_no_safe_arc_zero selfDefault id (fun _ => 0)
    (rowGrid [255, 255]) poseHalf 0 2 1 1 (by norm_num) hall
  have hfix : ∀ k : ℚ, (0 : ℚ) + k * 1 = k := by intro k; ring
  simpa [hfix] using h

/-- C10 (implicit in the code): for every grid and pose whose sweep never
classifies a heading as unsafe after the first safe heading (in
particular, when every swept heading is safe), no arc is ever closed: the
final tracking values stay at their initial `0`, and `findBestDirection`
returns exactly `0`.  A safe arc extending through the final sweep angle
is therefore never recorded as the selected widest arc. -/
theorem C10_no_close_returns_zero
    (self : BackUpFreeSpace) (cosf sinf : ℚ → ℚ) (cm : Costmap) (pose : Pose2D)
    (start endA radius inc : ℚ)
    (hmono : ∀ k1 k2 : ℕ, k1 ≤ k2 → k2 < sweepCount start endA inc →
      isSafeHeading cm pose radius cosf sinf (start + (k1 : ℚ) * inc) = true →
      isSafeHeading cm pose radius cosf sinf (start + (k2 : ℚ) * inc) = true) :
    ((sweepAngles start endA inc).foldl
      (stepSweep (isSafeHeading cm pose radius cosf sinf))
      initSweepState).final_safe_angle = 0 ∧
    ((sweepAngles start endA inc).foldl
      (stepSweep (isSafeHeading cm pose radius cosf sinf))
      initSweepState).final_unsafe_angle = 0 ∧
    self.findBestDirection cosf sinf cm pose start endA radius inc = 0 := by
  classical
  have key : ((sweepAngles start endA inc).foldl
      (stepSweep (isSafeHeading cm pose radius cosf sinf))
      initSweepState).final_safe_angle = 0 ∧
      ((sweepAngles start endA inc).foldl
      (stepSweep (isSafeHeading cm pose radius cosf sinf))
      initSweepState).final_unsafe_angle = 0 := by
    by_cases hex : ∃ m, m < sweepCount start endA inc ∧
        isSafeHeading cm pose radius cosf sinf (start + (m : ℚ) * inc) = true
    · have hmn : Nat.find hex < sweepCount start endA inc := (Nat.find_spec hex).1
      have hms : isSafeHeading cm pose radius cosf sinf
          (start + ((Nat.find hex : ℕ) : ℚ) * inc) = true := (Nat.find_spec hex).2
      have hmin : ∀ j : ℕ, j < Nat.find hex →
          isSafeHeading cm pose radius cosf sinf (start + (j : ℚ) * inc) = false := by
        intro j hj
        have hnot := Nat.find_min hex hj
        rw [Bool.eq_false_iff]
        intro hT
        exact hnot ⟨by omega, hT⟩
      rw [sweepAngles_eq_angList,
        show sweepCount start endA inc =
          Nat.find hex + (sweepCount start endA inc - Nat.find hex) from by omega,
        angList_append, List.foldl_append,
        show initSweepState = (⟨-1, -1, 0, 0⟩ : SweepState) from rfl]
      rw [foldl_angSeg_blocked (fun k hk => by
        have := hmin k hk
        simpa using this) 0 0]
      have hsuf : ∀ a ∈ angList start inc (0 + Nat.find hex)
          (sweepCount start endA inc - Nat.find hex),
          isSafeHeading cm pose radius cosf sinf a = true := by
        intro a ha
        obtain ⟨k, hk, rfl⟩ := mem_angList ha
        have e : start + (((0 + Nat.find hex : ℕ) : ℚ) + (k : ℚ)) * inc =
            start + ((Nat.find hex + k : ℕ) : ℚ) * inc := by
          push_cast
          ring
        rw [e]
        exact hmono (Nat.find hex) (Nat.find hex + k) (by omega) (by omega) hms
      obtain ⟨f2, hf2⟩ := foldl_safe_keeps hsuf (-1) 0 0
      rw [hf2]
      exact ⟨rfl, rfl⟩
    · have hall : ∀ k : ℕ, k < sweepCount start endA inc →
          isSafeHeading cm pose radius cosf sinf (start + (k : ℚ) * inc) = false := by
        intro k hk
        rw [Bool.eq_false_iff]
        intro hT
        exact hex ⟨k, hk, hT⟩
      have hfold : (sweepAngles start endA inc).foldl
          (stepSweep (isSafeHeading cm pose radius cosf sinf))
          initSweepState = initSweepState := by
        rw [sweepAngles_eq_angList,
          show initSweepState = (⟨-1, -1, 0, 0⟩ : SweepState) from rfl]
        exact foldl_angSeg_blocked (fun k hk => by
          have := hall k (by omega)
          simpa using this) 0 0
      rw [hfold]
      exact ⟨rfl, rfl⟩
  refine ⟨key.1, key.2, ?_⟩
  simp only [BackUpFreeSpace.findBestDirection]
  rw [key.1, key.2]
  norm_num


/-- C10, witness: the all-free grid `[0, 0, 0, 0]` never yields an unsafe
heading, so no arc closes and the result is exactly `0` even though the
whole sweep is one safe arc with midpoint `3/2`. -/
theorem C10_witness :
    ((sweepAngles 0 3 1).foldl
      (stepSweep (isSafeHeading (rowGrid [0, 0, 0, 0]) poseHalf 1 id
        (fun _ => 0))) initSweepState).final_safe_angle = 0 ∧
    ((sweepAngles 0 3 1).foldl
      (stepSweep (isSafeHeading (rowGrid [0, 0, 0, 0]) poseHalf 1 id
        (fun _ => 0))) initSweepState).final_unsafe_angle = 0 ∧
    selfDefault.findBestDirection id (fun _ => 0)
      (rowGrid [0, 0, 0, 0]) poseHalf 0 3 1 1 = 0 := by
  have hcount : sweepCount 0 3 1 = 4 := by
    norm_num [sweepCount]
    decide
  have hmono : ∀ k1 k2 : ℕ, k1 ≤ k2 → k2 < sweepCount 0 3 1 →
      isSafeHeading (rowGrid [0, 0, 0, 0]) poseHalf 1 id (fun _ => 0)
        ((0 : ℚ) + (k1 : ℚ) * 1) = true →
      isSafeHeading (rowGrid [0, 0, 0, 0]) poseHalf 1 id (fun _ => 0)
        ((0 : ℚ) + (k2 : ℚ) * 1) = true := by
    intro k1 k2 h12 hk2 _
    rw [hcount] at hk2
    rw [zero_add, mul_one, isSafeHeading_rowGrid]
    refine ⟨⟨by norm_num, by norm_num⟩, by simpa using hk2, ?_⟩
    interval_cases k2 <;> decide
  exact C10_no_close_returns_zero selfDefault id (fun _ => 0)
    (rowGrid [0, 0, 0, 0]) poseHalf 0 3 1 1 hmono

/-- C3: for every candidate heading, if any radial sample out to the
search radius falls outside the grid bounds (it fails the bounding-box
test of line 213, or its cell indices fail the range test of line 217),
the heading is classified unsafe; an out-of-bounds sample is never treated
as free. -/
theorem C3_out_of_bounds_unsafe
    (cm : Costmap) (pose : Pose2D) (radius : ℚ) (cosf sinf : ℚ → ℚ)
    (angle : ℚ) (k : ℕ)
    (hk : k < numRaySteps radius cm.metadata.resolution)
    (hout :
      inBox cm
        (samplePoint pose cosf sinf angle (k * cm.metadata.resolution)).1
        (samplePoint pose cosf sinf angle (k * cm.metadata.resolution)).2
        = false ∨
      idxOk cm
        (cellIndex cm.metadata.origin_x cm.metadata.resolution
          (samplePoint pose cosf sinf angle (k * cm.metadata.resolution)).1)
        (cellIndex cm.metadata.origin_y cm.metadata.resolution
          (samplePoint pose cosf sinf angle (k * cm.metadata.resolution)).2)
        = false) :
    isSafeHeading cm pose radius cosf sinf angle = false := by
  rw [Bool.eq_false_iff]
  intro hT
  rw [isSafeHeading, List.all_eq_true] at hT
  have h2 := hT k (List.mem_range.mpr hk)
  simp only [sampleOk] at h2
  rcases hout with h | h <;> rw [h] at h2 <;> simp at h2

/-- C3, witness: at heading `5` over the four-cell grid, the radial sample
at distance 1 lands at `x = 11/2`, outside the grid box `[0, 4]`, and the
heading is classified unsafe. -/
theorem C3_witness :
    isSafeHeading (rowGrid [0, 255, 0, 0]) poseHalf 1 id (fun _ => 0) 5
      = false := by
  apply C3_out_of_bounds_unsafe (rowGrid [0, 255, 0, 0]) poseHalf 1 id
    (fun _ => 0) 5 1
  · rw [show (rowGrid [0, 255, 0, 0]).metadata.resolution = 1 from rfl,
      show numRaySteps 1 1 = 2 from by norm_num [numRaySteps]]
    omega
  · left
    rw [show (rowGrid [0, 255, 0, 0]).metadata.resolution = 1 from rfl]
    rw [show samplePoint poseHalf id (fun _ => 0) 5 (((1 : ℕ) : ℚ) * 1) =
      (11/2, 1/2) from by simp [samplePoint, poseHalf]; norm_num]
    simp only [inBox, rowGrid, decide_eq_false_iff_not]
    intro hcon
    have := hcon.2.1
    norm_num at this

/-- C4: the in-bounds lethal decision of the sweep compares the cell value
against the fixed literal `253` (the sample passes exactly when the value
is below `253`), and the configured `free_threshold` member (declared with
default `5`) never influences the result of `findBestDirection`: changing
only `free_threshold` in the behavior object leaves the returned heading
unchanged. -/
theorem C4_lethal_literal_threshold_unused :
    (∀ (cm : Costmap) (x y : ℚ),
      inBox cm x y = true →
      idxOk cm (cellIndex cm.metadata.origin_x cm.metadata.resolution x)
        (cellIndex cm.metadata.origin_y cm.metadata.resolution y) = true →
      (sampleOk cm x y = true ↔
        cellValue cm (cellIndex cm.metadata.origin_x cm.metadata.resolution x)
          (cellIndex cm.metadata.origin_y cm.metadata.resolution y) < 253)) ∧
    (∀ (self : BackUpFreeSpace) (t : ℤ) (cosf sinf : ℚ → ℚ) (cm : Costmap)
      (pose : Pose2D) (start_angle end_angle radius angle_increment : ℚ),
      BackUpFreeSpace.findBestDirection { self with free_threshold := t }
        cosf sinf cm pose start_angle end_angle radius angle_increment =
      BackUpFreeSpace.findBestDirection self
        cosf sinf cm pose start_angle end_angle radius angle_increment) ∧
    defaultFreeThreshold = 5 := by
  refine ⟨?_, fun _ _ _ _ _ _ _ _ _ _ => rfl, rfl⟩
  intro cm x y hbox hidx
  simp only [sampleOk, hbox, hidx, if_true, decide_eq_true_eq]


/-- C4, witness: on the four-cell grid the in-box sample `(5/2, 1/2)`
lands in cell `(2, 0)` with value `0`, and the pass decision is exactly
the comparison against `253`; changing `free_threshold` to `99` leaves
`findBestDirection` unchanged. -/
theorem C4_witness :
    (sampleOk (rowGrid [0, 255, 0, 0]) (5/2) (1/2) = true ↔
      cellValue (rowGrid [0, 255, 0, 0])
        (cellIndex 0 1 (5/2)) (cellIndex 0 1 (1/2)) < 253) ∧
    BackUpFreeSpace.findBestDirection { selfDefault with free_threshold := 99 }
      id (fun _ => 0) (rowGrid [0, 255, 0, 0]) poseHalf 0 3 1 1 =
    BackUpFreeSpace.findBestDirection selfDefault
      id (fun _ => 0) (rowGrid [0, 255, 0, 0]) poseHalf 0 3 1 1 := by
  constructor
  · have hbox : inBox (rowGrid [0, 255, 0, 0]) (5/2) (1/2) = true := by
      simp only [inBox, rowGrid, decide_eq_true_eq]
      norm_num
    have hidx : idxOk (rowGrid [0, 255, 0, 0]) (cellIndex 0 1 (5/2))
        (cellIndex 0 1 (1/2)) = true := by
      rw [show (5/2 : ℚ) = 1/2 + ((2 : ℕ) : ℚ) from by norm_num,
        cellIndex_half_add]
      rw [show cellIndex 0 1 (1/2 : ℚ) = 0 from by
        have := cellIndex_half_add 0
        norm_num at this
        exact this]
      simp only [idxOk, rowGrid, decide_eq_true_eq]
      norm_num
    exact C4_lethal_literal_threshold_unused.1 (rowGrid [0, 255, 0, 0])
      (5/2) (1/2) hbox hidx
  · exact C4_lethal_literal_threshold_unused.2.1 selfDefault 99 id
      (fun _ => 0) (rowGrid [0, 255, 0, 0]) poseHalf 0 3 1 1

theorem onCycleUpdate_status_succeeded {hypotf : ℚ → ℚ → ℚ}
    {icf : ℚ → ℚ × ℚ → Pose2D → Bool} {st : ManeuverState} {env : CycleEnv}
    (h : (onCycleUpdate hypotf icf st env).status = Status.SUCCEEDED) :
    ¬ (st.end_time - env.now < 0 ∧ 0 < st.command_time_allowance) ∧
    ∃ cp : Pose2D, env.pose = some cp ∧
      |st.command_x| ≤ hypotf (st.initial_x - cp.x) (st.initial_y - cp.y) := by
  by_cases h1 : st.end_time - env.now < 0 ∧ 0 < st.command_time_allowance
  · rw [onCycleUpdate, if_pos h1] at h
    exact absurd h (by simp)
  · refine ⟨h1, ?_⟩
    cases hp : env.pose with
    | none =>
      rw [onCycleUpdate, if_neg h1] at h
      simp only [hp] at h
      exact absurd h (by simp)
    | some cp =>
      by_cases hd : |st.command_x| ≤ hypotf (st.initial_x - cp.x)
          (st.initial_y - cp.y)
      · exact ⟨cp, rfl, hd⟩
      · rw [onCycleUpdate, if_neg h1] at h
        simp only [hp] at h
        rw [if_neg hd] at h
        split_ifs at h

theorem runCycles_no_success (hypotf : ℚ → ℚ → ℚ)
    (icf : ℚ → ℚ × ℚ → Pose2D → Bool) (st : ManeuverState)
    (hallow : 0 < st.command_time_allowance) (envs : List CycleEnv)
    (htrace : ∀ e ∈ envs, ∀ cp : Pose2D, e.pose = some cp →
      st.end_time - e.now < 0 ∨
      hypotf (st.initial_x - cp.x) (st.initial_y - cp.y) < |st.command_x|) :
    Status.SUCCEEDED ∉ (runCycles hypotf icf st envs).map (·.status) := by
  induction envs with
  | nil => simp [runCycles]
  | cons e rest ih =>
    have ho : (onCycleUpdate hypotf icf st e).status ≠ Status.SUCCEEDED := by
      intro hs
      obtain ⟨h1, cp, hp, hd⟩ := onCycleUpdate_status_succeeded hs
      rcases htrace e (by simp) cp hp with h | h
      · exact h1 ⟨h, hallow⟩
      · linarith
    rw [runCycles]
    simp only [List.map_cons, List.mem_cons]
    intro hmem
    rcases hmem with h | h
    · exact ho h.symm
    · by_cases hr : (onCycleUpdate hypotf icf st e).status = Status.RUNNING
      · rw [if_pos hr] at h
        exact ih (fun x hx => htrace x (by simp [hx])) h
      · rw [if_neg hr] at h
        simp at h

/-- C6: for every maneuver with a positive time allowance, a cycle whose
clock has passed the deadline stops the robot and returns FAILED without
reading the pose, publishing feedback, or publishing the stored velocity
command — in particular even when the traveled distance has already
reached the target, showing the timeout check runs before the success
check; and over any run whose cycles never reach the target distance
while still within the deadline, SUCCEEDED is never returned. -/
theorem C6_timeout_failed_never_succeeded
    (hypotf : ℚ → ℚ → ℚ) (icf : ℚ → ℚ × ℚ → Pose2D → Bool)
    (st : ManeuverState) (env : CycleEnv) (envs : List CycleEnv)
    (hallow : 0 < st.command_time_allowance)
    (hlate : st.end_time - env.now < 0)
    (htrace : ∀ e ∈ envs, ∀ cp : Pose2D, e.pose = some cp →
      st.end_time - e.now < 0 ∨
      hypotf (st.initial_x - cp.x) (st.initial_y - cp.y) < |st.command_x|) :
    onCycleUpdate hypotf icf st env =
      { status := Status.FAILED, cmds := [VelCmd.stop], feedback := none } ∧
    Status.SUCCEEDED ∉ (runCycles hypotf icf st envs).map (·.status) := by
  constructor
  · rw [onCycleUpdate, if_pos ⟨hlate, hallow⟩]
  · exact runCycles_no_success hypotf icf st hallow envs htrace

/-- C6, witness: deadline 100, clock 200, allowance 10: the late cycle
returns FAILED with a stop command even though its pose sample lies 9
meters out (past the 5 meter target); a one-cycle run within the deadline
but short of the target never returns SUCCEEDED. -/
theorem C6_witness :
    onCycleUpdate (fun a _ => |a|) (fun _ _ _ => true)
      ⟨0, 0, 1, 0, 5, 10, 100⟩ ⟨200, some ⟨9, 0, 0⟩⟩ =
      { status := Status.FAILED, cmds := [VelCmd.stop], feedback := none } ∧
    Status.SUCCEEDED ∉ (runCycles (fun a _ => |a|) (fun _ _ _ => true)
      ⟨0, 0, 1, 0, 5, 10, 100⟩ [⟨1, some ⟨1, 0, 0⟩⟩]).map (·.status) := by
  exact C6_timeout_failed_never_succeeded (fun a _ => |a|) (fun _ _ _ => true)
    ⟨0, 0, 1, 0, 5, 10, 100⟩ ⟨200, some ⟨9, 0, 0⟩⟩ [⟨1, some ⟨1, 0, 0⟩⟩]
    (by norm_num) (by norm_num)
    (by
      intro e he cp hp
      simp at he
      right
      rw [he] at hp
      simp at hp
      rw [← hp]
      norm_num)

/-- C7: in every cycle that reaches the collision check (no timeout exit,
pose available, target not yet reached) and in which `isCollisionFree`
reports the path unsafe, the robot is commanded to stop, the stored
velocity command is not published, the already-computed distance is
published as feedback, and the cycle returns FAILED. -/
theorem C7_collision_stops_and_fails
    (hypotf : ℚ → ℚ → ℚ) (icf : ℚ → ℚ × ℚ → Pose2D → Bool)
    (st : ManeuverState) (env : CycleEnv) (cp : Pose2D)
    (hnotimeout : ¬ (st.end_time - env.now < 0 ∧ 0 < st.command_time_allowance))
    (hp : env.pose = some cp)
    (hfar : hypotf (st.initial_x - cp.x) (st.initial_y - cp.y) < |st.command_x|)
    (hcoll : icf (hypotf (st.initial_x - cp.x) (st.initial_y - cp.y))
      (st.twist_x, st.twist_y) ⟨cp.x, cp.y, cp.theta⟩ = false) :
    onCycleUpdate hypotf icf st env =
      { status := Status.FAILED, cmds := [VelCmd.stop],
        feedback := some (hypotf (st.initial_x - cp.x) (st.initial_y - cp.y)) }
      := by
  rw [onCycleUpdate, if_neg hnotimeout]
  simp only [hp]
  rw [if_neg (not_le.mpr hfar), if_pos hcoll]

/-- C7, witness: a collision-flagged cycle 1 meter into a 5 meter backup
publishes feedback `1`, issues only the stop command, and returns FAILED. -/
theorem C7_witness :
    onCycleUpdate (fun a _ => |a|) (fun _ _ _ => false)
      ⟨0, 0, 1, 0, 5, 10, 100⟩ ⟨1, some ⟨1, 0, 0⟩⟩ =
      { status := Status.FAILED, cmds := [VelCmd.stop],
        feedback := some 1 } := by
  have h := C7_collision_stops_and_fails (fun a _ => |a|) (fun _ _ _ => false)
    ⟨0, 0, 1, 0, 5, 10, 100⟩ ⟨1, some ⟨1, 0, 0⟩⟩ ⟨1, 0, 0⟩
    (by norm_num) rfl (by norm_num) rfl
  norm_num at h
  exact h


theorem onCycleUpdate_feedback_eq (hypotf : ℚ → ℚ → ℚ)
    (icf : ℚ → ℚ × ℚ → Pose2D → Bool) (st : ManeuverState) (env : CycleEnv) :
    (onCycleUpdate hypotf icf st env).feedback = none ∨
    (onCycleUpdate hypotf icf st env).feedback =
      some (cycleDistance hypotf st env) := by
  rw [onCycleUpdate]
  split_ifs with h1
  · left
    rfl
  · cases hp : env.pose with
    | none =>
      left
      simp only [hp]
    | some cp =>
      right
      simp only [hp]
      split_ifs <;> simp [cycleDistance, hp]

theorem onCycleUpdate_running_feedback (hypotf : ℚ → ℚ → ℚ)
    (icf : ℚ → ℚ × ℚ → Pose2D → Bool) (st : ManeuverState) (env : CycleEnv)
    (hr : (onCycleUpdate hypotf icf st env).status = Status.RUNNING) :
    (onCycleUpdate hypotf icf st env).feedback =
      some (cycleDistance hypotf st env) := by
  by_cases h1 : st.end_time - env.now < 0 ∧ 0 < st.command_time_allowance
  · rw [onCycleUpdate, if_pos h1] at hr
    exact absurd hr (by simp)
  · cases hp : env.pose with
    | none =>
      rw [onCycleUpdate, if_neg h1] at hr
      simp only [hp] at hr
      exact absurd hr (by simp)
    | some cp =>
      rw [onCycleUpdate, if_neg h1]
      simp only [hp]
      split_ifs <;> simp [cycleDistance, hp]

theorem runCycles_feedback_take (hypotf : ℚ → ℚ → ℚ)
    (icf : ℚ → ℚ × ℚ → Pose2D → Bool) (st : ManeuverState)
    (envs : List CycleEnv) :
    ∃ m, publishedFeedback (runCycles hypotf icf st envs) =
      (envs.map (cycleDistance hypotf st)).take m := by
  induction envs with
  | nil => exact ⟨0, rfl⟩
  | cons e rest ih =>
    obtain ⟨m, hm⟩ := ih
    by_cases hr : (onCycleUpdate hypotf icf st e).status = Status.RUNNING
    · have hf := onCycleUpdate_running_feedback hypotf icf st e hr
      refine ⟨m + 1, ?_⟩
      rw [runCycles, if_pos hr]
      simp only [publishedFeedback, List.filterMap_cons, hf, List.map_cons,
        List.take_succ_cons]
      exact congrArg _ hm
    · rcases onCycleUpdate_feedback_eq hypotf icf st e with hf | hf
      · refine ⟨0, ?_⟩
        rw [runCycles, if_neg hr]
        simp [publishedFeedback, List.filterMap_cons, hf]
      · refine ⟨1, ?_⟩
        rw [runCycles, if_neg hr]
        simp [publishedFeedback, List.filterMap_cons, hf]

/-- C9 (amended): within one maneuver, every cycle that reads a pose
publishes as feedback exactly the `hypot` of the componentwise difference
between the reference initial pose and that pose sample (the Euclidean
distance, never integrated velocity); and the published feedback sequence
is monotonically non-decreasing PROVIDED the distances of the sampled
poses from the initial pose are themselves non-decreasing — the code
recomputes the distance from the latest pose each cycle and does not
enforce monotonicity when the pose moves back toward the start (see the
counterexample). -/
theorem C9_feedback_euclidean_monotone
    (hypotf : ℚ → ℚ → ℚ) (icf : ℚ → ℚ × ℚ → Pose2D → Bool)
    (st : ManeuverState) :
    (∀ (env : CycleEnv) (cp : Pose2D), env.pose = some cp →
      ¬ (st.end_time - env.now < 0 ∧ 0 < st.command_time_allowance) →
      (onCycleUpdate hypotf icf st env).feedback =
        some (hypotf (st.initial_x - cp.x) (st.initial_y - cp.y))) ∧
    (∀ envs : List CycleEnv,
      (envs.map (cycleDistance hypotf st)).Chain' (· ≤ ·) →
      (publishedFeedback (runCycles hypotf icf st envs)).Chain' (· ≤ ·)) := by
  constructor
  · intro env cp hp h1
    rw [onCycleUpdate, if_neg h1]
    simp only [hp]
    split_ifs <;> rfl
  · intro envs hmono
    obtain ⟨m, hm⟩ := runCycles_feedback_take hypotf icf st envs
    rw [hm]
    exact List.Chain'.take hmono m


/-- C9, counterexample: with initial pose `(0, 0)`, target distance 5 and
deadline 100, two RUNNING cycles sample poses `(1, 0)` and then
`(1/2, 0)` — the robot has moved back toward its start — and the
published feedback sequence is `[1, 1/2]`, which is strictly decreasing.
The `hypot` stand-in `fun a b => |a|` agrees with the true Euclidean
distance on this trace because the y-difference is `0` in every cycle. -/
theorem C9_counterexample :
    publishedFeedback (runCycles (fun a _ => |a|) (fun _ _ _ => true)
      ⟨0, 0, 1, 0, 5, 10, 100⟩
      [⟨1, some ⟨1, 0, 0⟩⟩, ⟨2, some ⟨1/2, 0, 0⟩⟩]) = [1, 1/2] ∧
    ¬ ([(1 : ℚ), 1/2].Chain' (· ≤ ·)) := by
  have h1 : onCycleUpdate (fun a _ => |a|) (fun _ _ _ => true)
      ⟨0, 0, 1, 0, 5, 10, 100⟩ ⟨1, some ⟨1, 0, 0⟩⟩ =
      { status := Status.RUNNING, cmds := [VelCmd.drive 1 0],
        feedback := some 1 } := by
    rw [onCycleUpdate, if_neg (by norm_num)]
    norm_num
  have h2 : onCycleUpdate (fun a _ => |a|) (fun _ _ _ => true)
      ⟨0, 0, 1, 0, 5, 10, 100⟩ ⟨2, some ⟨1/2, 0, 0⟩⟩ =
      { status := Status.RUNNING, cmds := [VelCmd.drive 1 0],
        feedback := some (1/2) } := by
    rw [onCycleUpdate, if_neg (by norm_num)]
    norm_num
    rw [show |(1 : ℚ)/2| = 1/2 from abs_of_pos (by norm_num)]
    norm_num
  constructor
  · rw [runCycles, runCycles, h1, h2]
    norm_num [publishedFeedback, runCycles, List.filterMap_cons]
  · simp only [List.chain'_cons, List.chain'_singleton, and_true]
    norm_num

/-- C9, witness: a two-cycle trace moving from `(1, 0)` to `(2, 0)` has
non-decreasing pose distances, so the published feedback `[1, 2]` is a
non-decreasing chain; and a single in-deadline cycle publishes exactly
the distance between the initial pose and the pose sample. -/
theorem C9_witness :
    (onCycleUpdate (fun a _ => |a|) (fun _ _ _ => true)
      ⟨0, 0, 1, 0, 5, 10, 100⟩ ⟨1, some ⟨1, 0, 0⟩⟩).feedback =
      some ((fun a _ => |a|) ((0 : ℚ) - 1) ((0 : ℚ) - 0)) ∧
    (publishedFeedback (runCycles (fun a _ => |a|) (fun _ _ _ => true)
      ⟨0, 0, 1, 0, 5, 10, 100⟩
      [⟨1, some ⟨1, 0, 0⟩⟩, ⟨2, some ⟨2, 0, 0⟩⟩])).Chain' (· ≤ ·) := by
  constructor
  · exact (C9_feedback_euclidean_monotone (fun a _ => |a|) (fun _ _ _ => true)
      ⟨0, 0, 1, 0, 5, 10, 100⟩).1 ⟨1, some ⟨1, 0, 0⟩⟩ ⟨1, 0, 0⟩ rfl
      (by norm_num)
  · apply (C9_feedback_euclidean_monotone (fun a _ => |a|) (fun _ _ _ => true)
      ⟨0, 0, 1, 0, 5, 10, 100⟩).2
    simp only [List.map_cons, List.map_nil, cycleDistance, List.chain'_cons,
      List.chain'_singleton, and_true]
    rw [show |(0 : ℚ) - 1| = 1 from by rw [abs_sub_comm]; simp,
      show |(0 : ℚ) - 2| = 2 from by rw [abs_sub_comm]; simp]
    norm_num

/-- C8, counterexample: three consecutive 1-second waits in which the
service is unavailable but the process is not shutting down leave the
run-entry loop still waiting — it has not returned FAILED, contradicting
the claim that an unavailable service makes the run fail immediately
instead of waiting indefinitely. -/
theorem C8_counterexample :
    serviceWait (List.replicate 3 (false, true)) = WaitOutcome.stillWaiting ∧
    WaitOutcome.stillWaiting ≠ WaitOutcome.returnFailed := by
  exact ⟨rfl, by decide⟩

/-- C8 (amended): the run-entry wait loop returns FAILED as soon as
shutdown is observed (after any number of unavailable-but-running
iterations), but an unavailable service alone never makes it fail: after
any number of unavailable-but-running iterations the loop is still
waiting.  Each individual wait attempt is bounded (1 second), the overall
wait is not. -/
theorem C8_service_wait_shutdown_fails_unavailable_retries :
    (∀ (pre rest : List (Bool × Bool)), (∀ x ∈ pre, x = (false, true)) →
      serviceWait (pre ++ (false, false) :: rest) =
        WaitOutcome.returnFailed) ∧
    (∀ n : ℕ, serviceWait (List.replicate n (false, true)) =
      WaitOutcome.stillWaiting) := by
  constructor
  · intro pre rest hpre
    induction pre with
    | nil => rfl
    | cons a l ih =>
      have ha := hpre a (by simp)
      rw [List.cons_append, ha]
      show serviceWait (l ++ (false, false) :: rest) = _
      exact ih fun x hx => hpre x (by simp [hx])
  · intro n
    induction n with
    | zero => rfl
    | succ k ih =>
      rw [List.replicate_succ]
      show serviceWait (List.replicate k (false, true)) = _
      exact ih

/-- C8, witness: one unavailable-but-running wait followed by a shutdown
observation returns FAILED; two unavailable-but-running waits leave the
loop still waiting. -/
theorem C8_witness :
    serviceWait ([(false, true)] ++ (false, false) :: []) =
      WaitOutcome.returnFailed ∧
    serviceWait (List.replicate 2 (false, true)) =
      WaitOutcome.stillWaiting := by
  exact ⟨C8_service_wait_shutdown_fails_unavailable_retries.1
    [(false, true)] [] (by decide),
    C8_service_wait_shutdown_fails_unavailable_retries.2 2⟩

end PbNav2
